import Mathlib

/-!
Verification of the link-manager core of a MAVLink ground-station client
(file dronekit/__init__.py). Each subsystem that the checked properties
concern is shallowly embedded as executable Lean definitions translated
from the Python source: the parameter-synchronization state machine
(PARAM_VALUE handling and the parameter watchdog inside mavlink_thread),
the mission-download state machine, the message-listener dispatch
(mavlink_packet and the surrounding worker loop), listener registration
(on_message), the per-message vehicle-state listeners (EKF_STATUS_REPORT,
MOUNT_STATUS), and the close() drain loop. The source is Python 2, so
integer division by 100 is floor division, modelled with Int.fdiv.
-/

namespace Dronekit

/-! ### Parameter synchronization

State carried by the PState object created in prepare together with the
mavlink_thread locals last_new_param and duration, and the keyed mapping
self.mav_param (a dict, modelled as an association list where assignment
replaces the value of an existing key in place and otherwise appends).
Wall-clock times are rationals; param_index and param_count are decoded
from uint16 wire fields, hence natural numbers. -/

/-- One decoded PARAM_VALUE message (fields used by the handler). The
float payload is never computed with, only stored and compared, so it is
modelled by an integer code. -/
structure ParamMsg where
  param_id : String
  param_value : Int
  param_index : Nat
  param_count : Nat
deriving DecidableEq

/-- PState fields (mav_param_count starts at the sentinel -1), the keyed
mapping self.mav_param, and the thread locals last_new_param and
duration. -/
structure ParamSync where
  mav_param_count : Int
  mav_param_set : List (Option ParamMsg)
  loaded : Bool
  start : Bool
  mav_param : List (String × Int)
  last_new_param : ℚ
  duration : ℚ
deriving DecidableEq

def start_duration : ℚ := 1/5

def repeat_duration : ℚ := 1

/-- State at thread start: count -1, empty slots, loaded and start false,
empty dict, last_new_param set to the current time, duration at
start_duration. -/
def initParamSync (t0 : ℚ) : ParamSync :=
  { mav_param_count := -1
    mav_param_set := []
    loaded := false
    start := false
    mav_param := []
    last_new_param := t0
    duration := start_duration }

/-- Python dict assignment d[k] = v: replace the value of an existing key
in place, else append the new binding. -/
def dictSet : List (String × Int) → String → Int → List (String × Int)
  | [], k, v => [(k, v)]
  | (k0, v0) :: rest, k, v =>
      if k0 = k then (k, v) :: rest else (k0, v0) :: dictSet rest k v

/-- Python dict lookup d.get(k). -/
def lookupParam : List (String × Int) → String → Option Int
  | [], _ => none
  | (k0, v0) :: rest, k => if k0 = k then some v0 else lookupParam rest k

/-- First half of the PARAM_VALUE handler: if we discover a new param
count, assume we are receiving a new param set (reset loaded, set start,
store the count, allocate param_count unknown slots). -/
def paramCountCheck (st : ParamSync) (m : ParamMsg) : ParamSync :=
  if st.mav_param_count ≠ (m.param_count : Int) then
    { st with
      loaded := false
      start := true
      mav_param_count := (m.param_count : Int)
      mav_param_set := List.replicate m.param_count none }
  else st

/-- Second half of the PARAM_VALUE handler (the try block): if
param_index < param_count, and the slot is still unknown, refresh
last_new_param and reset duration to start_duration; store the message in
the slot; finally store param_id to param_value in the keyed mapping. -/
def paramTryBlock (now : ℚ) (st : ParamSync) (m : ParamMsg) : ParamSync :=
  let st1 :=
    if m.param_index < m.param_count then
      let st0 :=
        if st.mav_param_set.get? m.param_index = some none then
          { st with last_new_param := now, duration := start_duration }
        else st
      { st0 with mav_param_set := st0.mav_param_set.set m.param_index (some m) }
    else st
  { st1 with mav_param := dictSet st1.mav_param m.param_id m.param_value }

/-- Processing one inbound PARAM_VALUE at time now. -/
def paramValueStep (now : ℚ) (st : ParamSync) (m : ParamMsg) : ParamSync :=
  paramTryBlock now (paramCountCheck st m) m

/-- The request loop of the parameter watchdog: c = 0; for each unknown
slot index i, send a PARAM_REQUEST_READ with empty param_id for index i,
increment c and break once c > 50 (the check runs after the increment, so
the break happens after the 51st send). -/
def watchdogRequestsAux : List (Option ParamMsg) → Nat → Nat → List (String × Nat)
  | [], _, _ => []
  | none :: rest, i, c =>
      ("", i) :: (if c + 1 > 50 then [] else watchdogRequestsAux rest (i + 1) (c + 1))
  | some _ :: rest, i, c => watchdogRequestsAux rest (i + 1) c

/-- Top-of-iteration parameter watchdog: if start, then first mark loaded
when no unknown slot remains; then, if not loaded and the time since
last_new_param exceeds duration, emit the re-requests, set duration to
repeat_duration and refresh last_new_param. Returns the new state and
the list of (param_id, index) pairs sent. -/
def watchdogStep (now : ℚ) (st : ParamSync) : ParamSync × List (String × Nat) :=
  if st.start = true then
    let st1 := if none ∈ st.mav_param_set then st else { st with loaded := true }
    if st1.loaded = false ∧ now - st1.last_new_param > st1.duration then
      ({ st1 with duration := repeat_duration, last_new_param := now },
       watchdogRequestsAux st1.mav_param_set 0 0)
    else (st1, [])
  else (st, [])

/-- Indices of the unknown slots, counting from i. -/
def unknownIdxFrom : List (Option ParamMsg) → Nat → List Nat
  | [], _ => []
  | none :: rest, i => i :: unknownIdxFrom rest (i + 1)
  | some _ :: rest, i => unknownIdxFrom rest (i + 1)

/-- Folding the PARAM_VALUE handler over a timed inbound sequence. -/
def processParams (st : ParamSync) : List (ℚ × ParamMsg) → ParamSync
  | [] => st
  | (t, m) :: rest => processParams (paramValueStep t st m) rest

/-- Value of the latest PARAM_VALUE in the sequence carrying key k. -/
def lastParamValue (msgs : List (ℚ × ParamMsg)) (k : String) : Option Int :=
  ((msgs.filter (fun tm => tm.2.param_id == k)).getLast?).map
    (fun tm => tm.2.param_value)

/-- The loaded flag only ever holds when the set has started and no slot
is unknown. -/
def loadedInv (st : ParamSync) : Prop :=
  st.loaded = true → (st.start = true ∧ none ∉ st.mav_param_set)

/-! ### Mission (waypoint) download

State of the download side: the wp_loaded flag, the expected_count set by
a COUNT message, and the waypoint list held by the loader (count() is its
length; add appends — at the single call site the added message satisfies
msg.seq = count(), so any seq renumbering the loader may perform is the
identity there). Only the seq field of a waypoint message matters to the
download logic. -/

/-- One MISSION_ITEM / WAYPOINT message (only seq is inspected). -/
structure WpMsg where
  seq : Nat
deriving DecidableEq

/-- The two inbound message kinds the download branch inspects. -/
inductive WpEvent where
  | count (n : Nat)
  | item (m : WpMsg)
deriving DecidableEq

/-- Download-side state. -/
structure WpDownload where
  wp_loaded : Bool
  expected_count : Nat
  wpoints : List WpMsg
deriving DecidableEq

/-- The waypoint-receive branch of the inbound dispatch, guarded by
not wp_loaded: COUNT clears the loader, stores expected_count and
requests waypoint 0; an ITEM with seq above the current length is an
unexpected future waypoint (discarded), below it a duplicate (discarded),
and at it is appended, after which either waypoint seq + 1 is requested
or, when seq + 1 reaches expected_count, wp_loaded is set. Returns the
new state and the seqs of the WAYPOINT_REQUEST messages sent. -/
def wpRecvStep (st : WpDownload) (ev : WpEvent) : WpDownload × List Nat :=
  if st.wp_loaded = true then (st, [])
  else
    match ev with
    | .count n => ({ st with wpoints := [], expected_count := n }, [0])
    | .item m =>
        if m.seq > st.wpoints.length then (st, [])
        else if m.seq < st.wpoints.length then (st, [])
        else
          let st1 := { st with wpoints := st.wpoints ++ [m] }
          if m.seq + 1 < st1.expected_count then (st1, [m.seq + 1])
          else ({ st1 with wp_loaded := true }, [])

/-- The received list is a gap-free strictly increasing run 0..n-1 of
seqs. -/
def seqGapFree (l : List WpMsg) : Prop :=
  l.map WpMsg.seq = List.range l.length

/-! ### Message-listener dispatch and registration

Callbacks are identified by a tag; a callback either returns normally
(recording its tag in the invocation log) or raises. mavlink_packet runs
the listeners registered for the message type, then those registered for
the wildcard, then the single optional raw hook; Python has no handler
around these calls, so a raise aborts the dispatch, propagates out of the
per-message loop, and reaches the catch-all of mavlink_thread, which
swallows it only when exiting is set. -/

/-- A registered callback: runs normally or raises exception e. -/
inductive CB where
  | ok (id : Nat)
  | raises (e : Nat)
deriving DecidableEq

/-- Run callbacks in order, logging the tag of each normal completion;
a raise stops the run and reports the exception. -/
def runCBs : List CB → List Nat → List Nat × Option Nat
  | [], log => (log, none)
  | .ok i :: rest, log => runCBs rest (log ++ [i])
  | .raises e :: _, log => (log, some e)

/-- The listener table (message-type name to callbacks, default empty)
and the optional raw mavrx_callback hook. -/
structure Dispatch where
  message_listeners : String → List CB
  mavrx_callback : Option CB

/-- mavlink_packet: listeners for the type, then listeners for the
wildcard, then the raw hook; no exception handling anywhere. -/
def mavlink_packet (d : Dispatch) (typ : String) (log : List Nat) :
    List Nat × Option Nat :=
  match runCBs (d.message_listeners typ) log with
  | (log1, some e) => (log1, some e)
  | (log1, none) =>
      match runCBs (d.message_listeners "*") log1 with
      | (log2, some e) => (log2, some e)
      | (log2, none) =>
          match d.mavrx_callback with
          | none => (log2, none)
          | some cb => runCBs [cb] log2

/-- The per-message stretch of the worker loop: dispatch each inbound
message in turn; an exception abandons the remaining messages. -/
def processMsgs (d : Dispatch) (log : List Nat) : List String → List Nat × Option Nat
  | [] => (log, none)
  | typ :: rest =>
      match mavlink_packet d typ log with
      | (log1, none) => processMsgs d log1 rest
      | (log1, some e) => (log1, some e)

/-- The catch-all wrapped around mavlink_thread: an escaping exception is
swallowed when exiting is set and re-raised otherwise; either way the
loop has ended. -/
def mavlinkThreadRun (exiting : Bool) (d : Dispatch) (msgs : List String) :
    List Nat × Option Nat :=
  match processMsgs d [] msgs with
  | (log, none) => (log, none)
  | (log, some e) => (log, if exiting then none else some e)

/-- on_message: ensure the key exists, then append the callback only if
it is not already registered for that name. -/
def on_message (tbl : String → List CB) (name : String) (fn : CB) :
    String → List CB :=
  fun k =>
    if k = name then
      (if fn ∈ tbl name then tbl name else tbl name ++ [fn])
    else tbl k

/-- Every callback in the list completes normally. -/
def allOk (l : List CB) : Prop := ∀ c ∈ l, ∃ i, c = CB.ok i

/-- Tag of a callback. -/
def cbId : CB → Nat
  | .ok i => i
  | .raises e => e

/-! ### Vehicle-state listeners: EKF_STATUS_REPORT and MOUNT_STATUS -/

def EKF_POS_HORIZ_ABS : Nat := 16

def EKF_CONST_POS_MODE : Nat := 128

def EKF_PRED_POS_HORIZ_ABS : Nat := 512

/-- The fields of MPFakeState these listeners touch. Mount angles are
Python 2 integers (pointing fields are int32 centidegrees and the
division by 100 is floor division). -/
structure VehState where
  armed : Bool
  ekf_ok : Bool
  mount_pitch : Option Int
  mount_roll : Option Int
  mount_yaw : Option Int
deriving DecidableEq

/-- The EKF predicate of the EKF_STATUS_REPORT listener. -/
def ekfStatusFlagsOk (armed : Bool) (flags : Nat) : Bool :=
  let status_poshorizabs := decide (flags &&& EKF_POS_HORIZ_ABS > 0)
  let status_constposmode := decide (flags &&& EKF_CONST_POS_MODE > 0)
  let status_predposhorizabs := decide (flags &&& EKF_PRED_POS_HORIZ_ABS > 0)
  if armed then status_poshorizabs && !status_constposmode
  else status_poshorizabs || status_predposhorizabs

/-- The EKF_STATUS_REPORT listener: set ekf_ok from the current armed
state and the message flags. -/
def ekfStatusReportStep (st : VehState) (flags : Nat) : VehState :=
  { st with ekf_ok := ekfStatusFlagsOk st.armed flags }

/-- The MOUNT_STATUS listener: mount angles are the pointing fields
divided by 100 with Python 2 integer (floor) division. -/
def mountStatusStep (st : VehState) (pointing_a pointing_b pointing_c : Int) :
    VehState :=
  { st with
    mount_pitch := some (Int.fdiv pointing_a 100)
    mount_roll := some (Int.fdiv pointing_b 100)
    mount_yaw := some (Int.fdiv pointing_c 100) }

/-! ### close()

close sets exiting, then loops sleeping 0.1 s while the outbound queue is
nonempty, and closes the Transport only after observing the queue empty.
The queue contents over time are abstracted as the predicate emptyAt k,
whether the queue is observed empty at the k-th poll; fuel bounds the
number of polls we unroll. -/

/-- Observable effects of close(). -/
structure CloseObs where
  exiting : Bool
  transport_closed : Bool
deriving DecidableEq

/-- The drain loop, returning the index of the first poll that observed
the queue empty, when that happens within fuel polls. -/
def drainPolls (emptyAt : Nat → Bool) : Nat → Nat → Option Nat
  | _, 0 => none
  | k, fuel + 1 => if emptyAt k then some k else drainPolls emptyAt (k + 1) fuel

/-- close(): exiting is set first; the Transport is closed only if the
drain loop finishes within fuel polls, otherwise close is still looping. -/
def closeRun (emptyAt : Nat → Bool) (fuel : Nat) : Option CloseObs :=
  match drainPolls emptyAt 0 fuel with
  | some _ => some { exiting := true, transport_closed := true }
  | none => none

/-! ### Concrete runs used as test vehicles -/

/-- Parameter state reached from a fresh link after one PARAM_VALUE with
count 2 filling index 0 at time 0. -/
def c5afterFirst : ParamSync :=
  paramValueStep 0 (initParamSync 0) { param_id := "A", param_value := 3, param_index := 0, param_count := 2 }

/-- State after the watchdog has fired once (a re-request occurred) at
time 1. -/
def c5afterFire : ParamSync :=
  (watchdogStep 1 c5afterFirst).1

/-- A started, unloaded parameter state with 52 unknown slots, well past
the watchdog deadline. -/
def bigUnknownState : ParamSync :=
  { mav_param_count := 52
    mav_param_set := List.replicate 52 none
    loaded := false
    start := true
    mav_param := []
    last_new_param := 0
    duration := start_duration }

/-- A started, unloaded parameter state with unknown slots at indices 0
and 2. -/
def smallGapState : ParamSync :=
  { mav_param_count := 3
    mav_param_set := [none, some { param_id := "B", param_value := 1, param_index := 1, param_count := 3 }, none]
    loaded := false
    start := true
    mav_param := [("B", 1)]
    last_new_param := 0
    duration := start_duration }

/-- Dispatch table where the first listener for message type X raises 7
before a sibling and a wildcard listener. -/
def c3d : Dispatch :=
  { message_listeners := fun k =>
      if k = "X" then [CB.raises 7, CB.ok 1]
      else if k = "*" then [CB.ok 2] else []
    mavrx_callback := none }

/-- Dispatch table whose listeners for message type T are a block of
normal callbacks, then one that raises e, then arbitrary callbacks. -/
def raisingDispatch (ids : List Nat) (e : Nat) (post wild : List CB)
    (hook : Option CB) : Dispatch :=
  { message_listeners := fun k =>
      if k = "T" then ids.map CB.ok ++ CB.raises e :: post
      else if k = "*" then wild else []
    mavrx_callback := hook }

/-- A disarmed vehicle state with no mount data. -/
def vehDisarmed : VehState :=
  { armed := false, ekf_ok := false, mount_pitch := none, mount_roll := none, mount_yaw := none }

/-- An armed vehicle state. -/
def vehArmed : VehState :=
  { armed := true, ekf_ok := true, mount_pitch := none, mount_roll := none, mount_yaw := none }

/-! ## Theorems -/

/-! ### Parameter keyed mapping (C6) -/

theorem lookupParam_dictSet (d : List (String × Int)) (km k : String) (v : Int) :
    lookupParam (dictSet d km v) k = if km = k then some v else lookupParam d k := by
  induction d with
  | nil => simp [dictSet, lookupParam]
  | cons hd tl ih =>
      obtain ⟨k0, v0⟩ := hd
      by_cases h0 : k0 = km
      · subst h0
        by_cases hk : k0 = k <;> simp [dictSet, lookupParam, hk]
      · by_cases hk : k0 = k
        · subst hk
          simp only [dictSet, lookupParam, if_neg h0, if_pos rfl]
          exact (if_neg (fun h => h0 h.symm)).symm
        · simp [dictSet, lookupParam, h0, hk, ih]

theorem mav_param_paramValueStep (now : ℚ) (st : ParamSync) (m : ParamMsg) :
    (paramValueStep now st m).mav_param
      = dictSet st.mav_param m.param_id m.param_value := by
  have h1 : ∀ s : ParamSync, (paramTryBlock now s m).mav_param
      = dictSet s.mav_param m.param_id m.param_value := by
    intro s
    simp only [paramTryBlock]
    split <;> (try split) <;> rfl
  have h2 : (paramCountCheck st m).mav_param = st.mav_param := by
    simp only [paramCountCheck]
    split <;> rfl
  rw [paramValueStep, h1, h2]

theorem processParams_append (st : ParamSync) (l : List (ℚ × ParamMsg))
    (x : ℚ × ParamMsg) :
    processParams st (l ++ [x]) = paramValueStep x.1 (processParams st l) x.2 := by
  induction l generalizing st with
  | nil => rfl
  | cons hd tl ih =>
      obtain ⟨t, m⟩ := hd
      simp [processParams, ih]

theorem lastParamValue_concat (l : List (ℚ × ParamMsg)) (x : ℚ × ParamMsg)
    (k : String) :
    lastParamValue (l ++ [x]) k
      = if x.2.param_id = k then some x.2.param_value else lastParamValue l k := by
  unfold lastParamValue
  rw [List.filter_append]
  by_cases h : x.2.param_id = k
  · have hb : (x.2.param_id == k) = true := by simp [h]
    simp [hb, h, List.getLast?_concat]
  · have hb : (x.2.param_id == k) = false := by simp [h]
    simp [hb, h]

theorem lookup_processParams (st : ParamSync) (msgs : List (ℚ × ParamMsg))
    (k : String) :
    lookupParam (processParams st msgs).mav_param k
      = (lastParamValue msgs k).or (lookupParam st.mav_param k) := by
  induction msgs using List.reverseRecOn with
  | nil => simp [processParams, lastParamValue]
  | append_singleton l x ih =>
      rw [processParams_append, mav_param_paramValueStep, lookupParam_dictSet,
        lastParamValue_concat, ih]
      by_cases h : x.2.param_id = k <;> simp [h]

/-- Claim C6: after any inbound sequence, the keyed parameter mapping
holds an entry for exactly the keys of the PARAM_VALUE messages received,
and the entry for a key is the param_value of the latest PARAM_VALUE
carrying that key; the store happens unconditionally, whatever the
param_index. -/
theorem c6_keyed_param_mapping (t0 : ℚ) (msgs : List (ℚ × ParamMsg)) (k : String) :
    lookupParam (processParams (initParamSync t0) msgs).mav_param k
      = lastParamValue msgs k := by
  rw [lookup_processParams]
  simp [initParamSync, lookupParam]

/-! ### The loaded flag (C2) -/

theorem loaded_paramTryBlock (now : ℚ) (st : ParamSync) (m : ParamMsg) :
    (paramTryBlock now st m).loaded = st.loaded := by
  simp only [paramTryBlock]
  split <;> (try split) <;> rfl

theorem start_paramTryBlock (now : ℚ) (st : ParamSync) (m : ParamMsg) :
    (paramTryBlock now st m).start = st.start := by
  simp only [paramTryBlock]
  split <;> (try split) <;> rfl

theorem set_paramTryBlock (now : ℚ) (st : ParamSync) (m : ParamMsg) :
    (paramTryBlock now st m).mav_param_set
      = if m.param_index < m.param_count then
          st.mav_param_set.set m.param_index (some m)
        else st.mav_param_set := by
  simp only [paramTryBlock]
  split <;> (try split) <;> rfl

theorem watchdog_start (now : ℚ) (st : ParamSync) :
    (watchdogStep now st).1.start = st.start := by
  simp only [watchdogStep]
  split_ifs <;> rfl

theorem watchdog_set (now : ℚ) (st : ParamSync) :
    (watchdogStep now st).1.mav_param_set = st.mav_param_set := by
  simp only [watchdogStep]
  split_ifs <;> rfl

theorem watchdog_loaded (now : ℚ) (st : ParamSync) :
    (watchdogStep now st).1.loaded
      = if st.start = true ∧ none ∉ st.mav_param_set then true else st.loaded := by
  simp only [watchdogStep]
  by_cases hs : st.start = true
  · by_cases hm : none ∈ st.mav_param_set
    · have hp : ¬(st.start = true ∧ none ∉ st.mav_param_set) := fun hc => hc.2 hm
      rw [if_pos hs, if_pos hm, if_neg hp]
      split
      · rfl
      · rfl
    · have hp : st.start = true ∧ none ∉ st.mav_param_set := ⟨hs, hm⟩
      rw [if_pos hs, if_neg hm, if_pos hp]
      split
      · next hfire => exact Bool.noConfusion hfire.1
      · rfl
  · have hp : ¬(st.start = true ∧ none ∉ st.mav_param_set) := fun hc => hs hc.1
    rw [if_neg hs, if_neg hp]

/-- Claim C2 (amended): loaded implies started with no unknown slot at
every point, and the full biconditional loaded iff (started and no
unknown slot) holds right after the top-of-iteration watchdog check; it
does not hold right after message dispatch, because the PARAM_VALUE that
fills the last unknown slot leaves loaded false until the next
iteration. -/
theorem c2_loaded_iff (now : ℚ) (st : ParamSync) (m : ParamMsg)
    (h : loadedInv st) :
    loadedInv (paramValueStep now st m)
    ∧ loadedInv (watchdogStep now st).1
    ∧ ((watchdogStep now st).1.loaded = true ↔
        ((watchdogStep now st).1.start = true
          ∧ none ∉ (watchdogStep now st).1.mav_param_set)) := by
  have hl := watchdog_loaded now st
  have hst := watchdog_start now st
  have hset := watchdog_set now st
  refine ⟨?_, ?_, ?_⟩
  · intro hld
    rw [paramValueStep, loaded_paramTryBlock] at hld
    by_cases hc : st.mav_param_count ≠ (m.param_count : Int)
    · simp [paramCountCheck, hc] at hld
    · have hcc : paramCountCheck st m = st := by
        simp only [paramCountCheck, if_neg hc]
      rw [hcc] at hld
      obtain ⟨hs, hn⟩ := h hld
      refine ⟨?_, ?_⟩
      · rw [paramValueStep, start_paramTryBlock, hcc]; exact hs
      · rw [paramValueStep, set_paramTryBlock, hcc]
        split
        · intro hmem
          rcases List.mem_or_eq_of_mem_set hmem with h1 | h2
          · exact hn h1
          · exact Option.noConfusion h2
        · exact hn
  · intro hld
    rw [hl] at hld
    by_cases hp : st.start = true ∧ none ∉ st.mav_param_set
    · exact ⟨by rw [hst]; exact hp.1, by rw [hset]; exact hp.2⟩
    · rw [if_neg hp] at hld
      obtain ⟨hs, hn⟩ := h hld
      exact ⟨by rw [hst]; exact hs, by rw [hset]; exact hn⟩
  · rw [hl, hst, hset]
    by_cases hp : st.start = true ∧ none ∉ st.mav_param_set
    · simp [hp]
    · rw [if_neg hp]
      constructor
      · intro hld; exact absurd (h hld) hp
      · intro hpp; exact absurd hpp hp

/-- Claim C2 is false as stated: processing the PARAM_VALUE that fills
the last unknown slot of a started set leaves loaded false, though
started is true and no unknown slot remains. -/
theorem c2_counterexample :
    (paramValueStep 0 (initParamSync 0)
        { param_id := "A", param_value := 5, param_index := 0, param_count := 1 }).start = true
    ∧ none ∉ (paramValueStep 0 (initParamSync 0)
        { param_id := "A", param_value := 5, param_index := 0, param_count := 1 }).mav_param_set
    ∧ (paramValueStep 0 (initParamSync 0)
        { param_id := "A", param_value := 5, param_index := 0, param_count := 1 }).loaded = false := by
  decide

/-- Witness: the biconditional holds after the watchdog check on a
concrete started state with two unknown slots. -/
theorem c2_witness :
    (watchdogStep 2 smallGapState).1.loaded = true ↔
      ((watchdogStep 2 smallGapState).1.start = true
        ∧ none ∉ (watchdogStep 2 smallGapState).1.mav_param_set) :=
  (c2_loaded_iff 2 smallGapState
    { param_id := "A", param_value := 5, param_index := 0, param_count := 1 }
    (fun hx => absurd hx (by decide))).2.2

/-! ### Watchdog duration dynamics (C5) -/

theorem duration_paramCountCheck (st : ParamSync) (m : ParamMsg) :
    (paramCountCheck st m).duration = st.duration := by
  simp only [paramCountCheck]
  split <;> rfl

/-- Claim C5 (amended): duration starts at start_duration = 0.2 s and
each watchdog firing sets it to repeat_duration = 1 s; but it does not
then stay at repeat_duration until a fresh parameter set: any PARAM_VALUE
that fills a previously unknown slot (param_index below param_count,
slot unknown after the count check) resets duration to start_duration,
also when the param_count is unchanged; duration is preserved by a
PARAM_VALUE that fills no new slot. -/
theorem c5_duration_dynamics (t0 now : ℚ) (st : ParamSync) (m : ParamMsg) :
    ((initParamSync t0).duration = start_duration)
    ∧ (st.start = true → st.loaded = false → none ∈ st.mav_param_set →
        now - st.last_new_param > st.duration →
        (watchdogStep now st).1.duration = repeat_duration)
    ∧ (m.param_index < m.param_count →
        (paramCountCheck st m).mav_param_set.get? m.param_index = some none →
        (paramValueStep now st m).duration = start_duration)
    ∧ ((m.param_index < m.param_count →
        (paramCountCheck st m).mav_param_set.get? m.param_index ≠ some none) →
        (paramValueStep now st m).duration = st.duration) := by
  refine ⟨rfl, ?_, ?_, ?_⟩
  · intro hs hld hmem htime
    simp only [watchdogStep]
    rw [if_pos hs, if_pos hmem, if_pos ⟨hld, htime⟩]
  · intro hidx hslot
    simp only [paramValueStep, paramTryBlock]
    rw [if_pos hidx, if_pos hslot]
  · intro hno
    simp only [paramValueStep, paramTryBlock]
    by_cases hidx : m.param_index < m.param_count
    · rw [if_pos hidx, if_neg (hno hidx)]
      exact duration_paramCountCheck st m
    · rw [if_neg hidx]
      exact duration_paramCountCheck st m

/-- Claim C5 is false as stated: from a fresh link, fill slot 0 of a
2-slot set at time 0, let the watchdog re-request at time 1 (duration
becomes repeat_duration), then receive the PARAM_VALUE for slot 1 with
the same param_count 2: duration drops back to start_duration although
no fresh parameter set was observed. -/
theorem c5_counterexample :
    c5afterFire.duration = repeat_duration
    ∧ c5afterFire.mav_param_count = 2
    ∧ (paramValueStep 1 c5afterFire
        { param_id := "B", param_value := 4, param_index := 1, param_count := 2 }).duration
        = start_duration
    ∧ start_duration ≠ repeat_duration := by
  with_unfolding_all decide

/-- Witness: the firing and resetting branches of the duration dynamics
at concrete inputs. -/
theorem c5_witness :
    (watchdogStep 1 c5afterFirst).1.duration = repeat_duration
    ∧ (paramValueStep 1 c5afterFire
        { param_id := "B", param_value := 4, param_index := 1, param_count := 2 }).duration
        = start_duration := by
  constructor
  · exact (c5_duration_dynamics 0 1 c5afterFirst
      { param_id := "B", param_value := 4, param_index := 1, param_count := 2 }).2.1
      (by with_unfolding_all decide) (by with_unfolding_all decide)
      (by with_unfolding_all decide) (by with_unfolding_all decide)
  · exact (c5_duration_dynamics 0 1 c5afterFire
      { param_id := "B", param_value := 4, param_index := 1, param_count := 2 }).2.2.1
      (by with_unfolding_all decide) (by with_unfolding_all decide)

/-! ### Watchdog re-request batch (C4) -/

theorem watchdogRequestsAux_eq (l : List (Option ParamMsg)) :
    ∀ i c, c ≤ 50 →
      watchdogRequestsAux l i c
        = ((unknownIdxFrom l i).take (51 - c)).map (fun j => ("", j)) := by
  induction l with
  | nil => intro i c _; simp [watchdogRequestsAux, unknownIdxFrom]
  | cons hd tl ih =>
      intro i c hc
      cases hd with
      | some m =>
          simp only [watchdogRequestsAux, unknownIdxFrom]
          exact ih (i + 1) c hc
      | none =>
          simp only [watchdogRequestsAux, unknownIdxFrom]
          have h51 : 51 - c = (50 - c) + 1 := by omega
          rw [h51, List.take_succ_cons, List.map_cons]
          by_cases hstop : c + 1 > 50
          · have hc50 : c = 50 := by omega
            rw [if_pos hstop]
            simp [hc50]
          · rw [if_neg hstop, ih (i + 1) (c + 1) (by omega)]
            have : 51 - (c + 1) = 50 - c := by omega
            rw [this]

/-- Claim C4 (amended): when the watchdog fires (started, not loaded,
time since the last new slot exceeds duration), it sends a
PARAM_REQUEST_READ with empty param_id, by index, for the first at most
51 unknown indices — not 50: the counter is checked after the increment,
so the break happens only after the 51st request. -/
theorem c4_watchdog_requests (now : ℚ) (st : ParamSync)
    (hs : st.start = true) (hld : st.loaded = false)
    (hmem : none ∈ st.mav_param_set)
    (htime : now - st.last_new_param > st.duration) :
    (watchdogStep now st).2
      = ((unknownIdxFrom st.mav_param_set 0).take 51).map (fun i => ("", i))
    ∧ (watchdogStep now st).2.length
      = min 51 (unknownIdxFrom st.mav_param_set 0).length := by
  have hreq : (watchdogStep now st).2 = watchdogRequestsAux st.mav_param_set 0 0 := by
    simp only [watchdogStep]
    rw [if_pos hs, if_pos hmem, if_pos ⟨hld, htime⟩]
  have heq := watchdogRequestsAux_eq st.mav_param_set 0 0 (by omega)
  constructor
  · rw [hreq, heq]
  · rw [hreq, heq, List.length_map, List.length_take]

/-- Claim C4 is false as stated: a started, unloaded set with 52 unknown
slots, well past the deadline, gets 51 re-requests in one firing, more
than the 50 the claim allows. -/
theorem c4_counterexample :
    ¬ (watchdogStep 10 bigUnknownState).2.length ≤ 50 := by
  with_unfolding_all decide

/-- Witness: on a concrete state with unknown slots at indices 0 and 2,
one firing requests exactly those two indices with empty param_id. -/
theorem c4_witness :
    (watchdogStep 1 smallGapState).2 = [("", 0), ("", 2)] := by
  have h := (c4_watchdog_requests 1 smallGapState (by decide) (by decide)
    (by decide) (by with_unfolding_all decide)).1
  rw [h]
  decide

/-! ### Mission download (C1) -/

/-- Claim C1: with n the number of received waypoints and the download
side not loaded, an inbound MISSION_ITEM / WAYPOINT with seq above n is
discarded, with seq below n is discarded as a duplicate, and with
seq = n is appended, after which WAYPOINT_REQUEST(seq + 1) is sent when
seq + 1 is below expected_count and otherwise wp_loaded is set; the
received list always stays a gap-free strictly increasing prefix
0..n-1 by seq (under any event, also a COUNT, which clears it). -/
theorem c1_mission_download (st : WpDownload) (m : WpMsg) (ev : WpEvent)
    (hld : st.wp_loaded = false) :
    (m.seq > st.wpoints.length → wpRecvStep st (.item m) = (st, []))
    ∧ (m.seq < st.wpoints.length → wpRecvStep st (.item m) = (st, []))
    ∧ (m.seq = st.wpoints.length →
        ((wpRecvStep st (.item m)).1.wpoints = st.wpoints ++ [m]
         ∧ (m.seq + 1 < st.expected_count →
              wpRecvStep st (.item m)
                = ({ st with wpoints := st.wpoints ++ [m] }, [m.seq + 1]))
         ∧ (¬ m.seq + 1 < st.expected_count →
              wpRecvStep st (.item m)
                = ({ st with wpoints := st.wpoints ++ [m], wp_loaded := true }, []))))
    ∧ (seqGapFree st.wpoints → seqGapFree (wpRecvStep st ev).1.wpoints) := by
  have hne : ¬ st.wp_loaded = true := by rw [hld]; exact Bool.false_ne_true
  refine ⟨?_, ?_, ?_, ?_⟩
  · intro hgt
    simp only [wpRecvStep]
    rw [if_neg hne, if_pos hgt]
  · intro hlt
    have hngt : ¬ m.seq > st.wpoints.length := by omega
    simp only [wpRecvStep]
    rw [if_neg hne, if_neg hngt, if_pos hlt]
  · intro heq
    have hngt : ¬ m.seq > st.wpoints.length := by omega
    have hnlt : ¬ m.seq < st.wpoints.length := by omega
    refine ⟨?_, ?_, ?_⟩
    · simp only [wpRecvStep]
      rw [if_neg hne, if_neg hngt, if_neg hnlt]
      split <;> rfl
    · intro hreq
      simp only [wpRecvStep]
      rw [if_neg hne, if_neg hngt, if_neg hnlt, if_pos hreq]
    · intro hnreq
      simp only [wpRecvStep]
      rw [if_neg hne, if_neg hngt, if_neg hnlt, if_neg hnreq]
  · intro hgf
    cases ev with
    | count n =>
        simp only [wpRecvStep]
        rw [if_neg hne]
        simp [seqGapFree]
    | item m0 =>
        simp only [wpRecvStep]
        rw [if_neg hne]
        by_cases hgt : m0.seq > st.wpoints.length
        · rw [if_pos hgt]; exact hgf
        · rw [if_neg hgt]
          by_cases hlt : m0.seq < st.wpoints.length
          · rw [if_pos hlt]; exact hgf
          · rw [if_neg hlt]
            have heq : m0.seq = st.wpoints.length := by omega
            have happ : seqGapFree (st.wpoints ++ [m0]) := by
              unfold seqGapFree at hgf ⊢
              rw [List.map_append, List.map_cons, List.map_nil, hgf, heq,
                List.length_append, List.length_cons, List.length_nil,
                ← List.range_succ]
            split
            · exact happ
            · exact happ

/-- Witness: receiving the final waypoint seq 1 of an expected set of 2
appends it, sends nothing, sets wp_loaded, and preserves gap-freeness. -/
theorem c1_witness :
    wpRecvStep { wp_loaded := false, expected_count := 2, wpoints := [{ seq := 0 }] }
        (.item { seq := 1 })
      = ({ wp_loaded := true, expected_count := 2, wpoints := [{ seq := 0 }, { seq := 1 }] }, [])
    ∧ seqGapFree (wpRecvStep { wp_loaded := false, expected_count := 2, wpoints := [{ seq := 0 }] }
        (.item { seq := 1 })).1.wpoints := by
  have h := c1_mission_download
    { wp_loaded := false, expected_count := 2, wpoints := [{ seq := 0 }] }
    { seq := 1 } (.item { seq := 1 }) (by decide)
  exact ⟨(h.2.2.1 (by decide)).2.2 (by decide),
    h.2.2.2 (by unfold seqGapFree; decide)⟩

/-! ### Listener exceptions (C3) -/

theorem runCBs_ok (ids : List Nat) :
    ∀ log, runCBs (ids.map CB.ok) log = (log ++ ids, none) := by
  induction ids with
  | nil => intro log; simp [runCBs]
  | cons i rest ih =>
      intro log
      simp only [List.map_cons, runCBs, ih, List.append_assoc,
        List.singleton_append]

theorem runCBs_raises (ids : List Nat) (e : Nat) (post : List CB) :
    ∀ log, runCBs (ids.map CB.ok ++ CB.raises e :: post) log = (log ++ ids, some e) := by
  induction ids with
  | nil => intro log; simp [runCBs]
  | cons i rest ih =>
      intro log
      simp only [List.map_cons, List.cons_append, runCBs, List.append_eq]
      rw [ih (log ++ [i])]
      simp

/-- Claim C3 (amended): a listener exception is not caught during
dispatch: the raising listener aborts mavlink_packet, so later callbacks
registered for the type, the wildcard callbacks and the raw hook are all
skipped, the remaining inbound messages are not dispatched, and the
worker terminates, re-raising the exception unless exiting is set. -/
theorem c3_listener_exception (ids : List Nat) (e : Nat) (post wild : List CB)
    (hook : Option CB) (log : List Nat) (more : List String) (exiting : Bool) :
    mavlink_packet (raisingDispatch ids e post wild hook) "T" log = (log ++ ids, some e)
    ∧ processMsgs (raisingDispatch ids e post wild hook) log ("T" :: more)
        = (log ++ ids, some e)
    ∧ mavlinkThreadRun exiting (raisingDispatch ids e post wild hook) ("T" :: more)
        = (ids, if exiting then none else some e) := by
  have hmp : ∀ lg, mavlink_packet (raisingDispatch ids e post wild hook) "T" lg
      = (lg ++ ids, some e) := by
    intro lg
    have hl : (raisingDispatch ids e post wild hook).message_listeners "T"
        = ids.map CB.ok ++ CB.raises e :: post := by
      simp [raisingDispatch]
    unfold mavlink_packet
    rw [hl, runCBs_raises]
  refine ⟨hmp log, ?_, ?_⟩
  · simp only [processMsgs, hmp log]
  · simp only [mavlinkThreadRun, processMsgs, hmp []]
    simp

/-- Claim C3 is false as stated: with listeners raises 7 then ok 1 for
type X and a wildcard listener ok 2, dispatching X runs neither sibling
(the log stays empty), the exception escapes, the queued next message is
never dispatched, and the worker run ends with the exception. -/
theorem c3_counterexample :
    (mavlink_packet c3d "X" []).2 = some 7
    ∧ 1 ∉ (mavlink_packet c3d "X" []).1
    ∧ 2 ∉ (mavlink_packet c3d "X" []).1
    ∧ processMsgs c3d [] ["X", "Y"] = ([], some 7)
    ∧ mavlinkThreadRun false c3d ["X", "Y"] = ([], some 7) := by
  decide

/-! ### Listener registration (C10) -/

theorem allOk_runCBs (l : List CB) :
    ∀ log, allOk l → runCBs l log = (log ++ l.map cbId, none) := by
  induction l with
  | nil => intro log _; simp [runCBs]
  | cons c rest ih =>
      intro log h
      obtain ⟨i, hi⟩ := h c (List.mem_cons_self c rest)
      subst hi
      simp only [runCBs, List.map_cons, cbId]
      rw [ih (log ++ [i]) (fun c hc => h c (List.mem_cons_of_mem _ hc))]
      simp

theorem count_cbId (l : List CB) (i : Nat) :
    allOk l → List.count i (l.map cbId) = List.count (CB.ok i) l := by
  induction l with
  | nil => intro _; simp
  | cons c rest ih =>
      intro h
      obtain ⟨j, hj⟩ := h c (List.mem_cons_self c rest)
      subst hj
      simp only [List.map_cons, cbId]
      rw [List.count_cons, List.count_cons,
        ih (fun c hc => h c (List.mem_cons_of_mem _ hc))]
      by_cases hji : j = i
      · simp [hji]
      · simp [hji]

theorem mavlink_packet_allOk (lst : String → List CB) (typ : String)
    (log : List Nat) (h1 : allOk (lst typ)) (h2 : allOk (lst "*")) :
    mavlink_packet { message_listeners := lst, mavrx_callback := none } typ log
      = (log ++ (lst typ).map cbId ++ (lst "*").map cbId, none) := by
  unfold mavlink_packet
  dsimp only
  rw [allOk_runCBs _ log h1]
  dsimp only
  rw [allOk_runCBs _ _ h2]

/-- Claim C10: registering the same callback twice for the same
message-type name leaves the listener table unchanged, the callback is
listed exactly once, and a matching inbound message invokes it exactly
once, not once per registration. -/
theorem c10_on_message_idempotent (tbl : String → List CB) (n : String) (f : CB) :
    on_message (on_message tbl n f) n f = on_message tbl n f
    ∧ (f ∉ tbl n → List.count f ((on_message tbl n f) n) = 1)
    ∧ (∀ i, f = CB.ok i → n ≠ "*" → f ∉ tbl n → f ∉ tbl "*" →
        allOk (tbl n) → allOk (tbl "*") →
        List.count i ((mavlink_packet
            { message_listeners := on_message (on_message tbl n f) n f
              mavrx_callback := none } n []).1) = 1) := by
  have hmem1 : ∀ (g : CB), g ∉ tbl n → (on_message tbl n g) n = tbl n ++ [g] := by
    intro g hg
    simp [on_message, hg]
  have h1 : on_message (on_message tbl n f) n f = on_message tbl n f := by
    funext k
    by_cases hk : k = n
    · subst hk
      by_cases hf : f ∈ tbl k
      · simp [on_message, hf]
      · simp [on_message, hf, List.mem_append]
    · simp [on_message, hk]
  refine ⟨h1, ?_, ?_⟩
  · intro hf
    rw [hmem1 f hf, List.count_append,
      List.count_eq_zero_of_not_mem hf]
    simp
  · intro i hfi hne hfn hfw hok1 hok2
    subst hfi
    have ht1n : (on_message tbl n (CB.ok i)) n = tbl n ++ [CB.ok i] :=
      hmem1 (CB.ok i) hfn
    have ht1w : (on_message tbl n (CB.ok i)) "*" = tbl "*" := by
      have hw : ("*" : String) ≠ n := fun h => hne h.symm
      simp [on_message, hw]
    have hokn : allOk (tbl n ++ [CB.ok i]) := by
      intro c hc
      rcases List.mem_append.1 hc with h | h
      · exact hok1 c h
      · rcases List.mem_singleton.1 h with rfl
        exact ⟨i, rfl⟩
    rw [h1, mavlink_packet_allOk (on_message tbl n (CB.ok i)) n []
      (by rw [ht1n]; exact hokn) (by rw [ht1w]; exact hok2)]
    rw [ht1n, ht1w]
    dsimp only
    rw [List.nil_append, List.map_append, List.count_append, List.count_append,
      count_cbId _ _ hok1, count_cbId _ _ hok2,
      List.count_eq_zero_of_not_mem hfn,
      List.count_eq_zero_of_not_mem hfw]
    simp [cbId]

/-- Witness: registering ok 5 twice for HEARTBEAT on an empty table gets
it invoked exactly once by a HEARTBEAT dispatch. -/
theorem c10_witness :
    List.count 5 ((mavlink_packet
        { message_listeners :=
            on_message (on_message (fun _ => []) "HEARTBEAT" (CB.ok 5)) "HEARTBEAT" (CB.ok 5)
          mavrx_callback := none } "HEARTBEAT" []).1) = 1 :=
  (c10_on_message_idempotent (fun _ => []) "HEARTBEAT" (CB.ok 5)).2.2 5 rfl
    (by decide) (by decide) (by decide)
    (fun c hc => absurd hc (List.not_mem_nil c))
    (fun c hc => absurd hc (List.not_mem_nil c))

/-! ### EKF predicate (C7) -/

theorem decide_and_pow (n k : Nat) :
    decide (n &&& 2 ^ k > 0) = n.testBit k := by
  rw [Nat.and_two_pow]
  cases h : n.testBit k
  · simp
  · simp [Nat.two_pow_pos]

theorem decide_and_16 (n : Nat) :
    decide (n &&& EKF_POS_HORIZ_ABS > 0) = n.testBit 4 := by
  have h : EKF_POS_HORIZ_ABS = 2 ^ 4 := rfl
  rw [h, decide_and_pow]

theorem decide_and_128 (n : Nat) :
    decide (n &&& EKF_CONST_POS_MODE > 0) = n.testBit 7 := by
  have h : EKF_CONST_POS_MODE = 2 ^ 7 := rfl
  rw [h, decide_and_pow]

theorem decide_and_512 (n : Nat) :
    decide (n &&& EKF_PRED_POS_HORIZ_ABS > 0) = n.testBit 9 := by
  have h : EKF_PRED_POS_HORIZ_ABS = 2 ^ 9 := rfl
  rw [h, decide_and_pow]

/-- Claim C7: the EKF_STATUS_REPORT listener sets ekf_ok to
(POS_HORIZ_ABS and not CONST_POS_MODE) when armed and to
(POS_HORIZ_ABS or PRED_POS_HORIZ_ABS) when disarmed; in particular
disarmed with only PRED_POS_HORIZ_ABS gives true and armed with
POS_HORIZ_ABS plus CONST_POS_MODE gives false. -/
theorem c7_ekf_predicate (st : VehState) (flags : Nat) :
    ((ekfStatusReportStep st flags).ekf_ok
       = if st.armed then (flags.testBit 4 && !flags.testBit 7)
         else (flags.testBit 4 || flags.testBit 9))
    ∧ (ekfStatusReportStep vehDisarmed EKF_PRED_POS_HORIZ_ABS).ekf_ok = true
    ∧ (ekfStatusReportStep vehArmed
        (EKF_POS_HORIZ_ABS ||| EKF_CONST_POS_MODE)).ekf_ok = false := by
  refine ⟨?_, by decide, by decide⟩
  simp only [ekfStatusReportStep, ekfStatusFlagsOk]
  rw [decide_and_16, decide_and_128, decide_and_512]

/-! ### Mount angles (C8) -/

/-- Claim C8 fails on the code: the MOUNT_STATUS listener divides the
pointing fields by 100 with Python 2 integer floor division, so
pointing_a = 150 centidegrees yields mount_pitch = 1, not the exact
1.5 degrees the claim requires. -/
theorem c8_mount_floor_division :
    (mountStatusStep vehDisarmed 150 150 150).mount_pitch = some 1
    ∧ (mountStatusStep vehDisarmed 150 150 150).mount_roll = some 1
    ∧ (mountStatusStep vehDisarmed 150 150 150).mount_yaw = some 1
    ∧ (150 : ℚ) / 100 ≠ (1 : ℚ) := by
  refine ⟨rfl, rfl, rfl, by norm_num⟩

/-! ### close() drain loop (C9) -/

theorem drainPolls_isSome (emptyAt : Nat → Bool) :
    ∀ fuel k, (drainPolls emptyAt k fuel).isSome
      = (List.range fuel).any (fun j => emptyAt (k + j)) := by
  intro fuel
  induction fuel with
  | zero => intro k; simp [drainPolls]
  | succ n ih =>
      intro k
      rw [List.range_succ_eq_map]
      simp only [drainPolls, List.any_cons, List.any_map, Nat.add_zero]
      cases h : emptyAt k with
      | true => simp
      | false =>
          simp only [Bool.false_or]
          rw [if_neg Bool.false_ne_true, ih (k + 1)]
          congr 1
          funext j
          have harith : k + 1 + j = k + (j + 1) := by omega
          simp [Function.comp, harith]

/-- Claim C9 (amended): close sets exiting first and closes the
Transport only after a poll observes the outbound queue empty; the wait
is not bounded: within fuel polls, close completes exactly when some
poll among the first fuel observes the queue empty, and no number of
polls suffices when the queue is never observed empty. -/
theorem c9_close_drain (emptyAt : Nat → Bool) (fuel : Nat) :
    closeRun emptyAt fuel
      = if (List.range fuel).any emptyAt then
          some { exiting := true, transport_closed := true } else none := by
  have h := drainPolls_isSome emptyAt fuel 0
  simp only [Nat.zero_add] at h
  unfold closeRun
  cases hd : drainPolls emptyAt 0 fuel with
  | none =>
      rw [hd] at h
      simp only [Option.isSome_none] at h
      rw [if_neg (fun hc => Bool.false_ne_true (h.trans hc))]
  | some k =>
      rw [hd] at h
      simp only [Option.isSome_some] at h
      rw [if_pos h.symm]

theorem drainPolls_const_false : ∀ (fuel k : Nat),
    drainPolls (fun _ => false) k fuel = none := by
  intro fuel
  induction fuel with
  | zero => intro k; rfl
  | succ n ih => intro k; simp [drainPolls, ih]

/-- Claim C9 is false as stated: on a queue that is never observed
empty, no number of polls lets close finish, so the drain wait is not
bounded. -/
theorem c9_counterexample :
    ¬ ∃ (fuel : Nat) (obs : CloseObs), closeRun (fun _ => false) fuel = some obs := by
  rintro ⟨fuel, obs, h⟩
  unfold closeRun at h
  rw [drainPolls_const_false fuel 0] at h
  exact Option.noConfusion h

end Dronekit
